import Mathlib

/-!
Verification of the `ic-e8s` fixed-point decimal library.

The two Rust types are embedded shallowly:
* `ECs D` models `ECs<const DECIMALS: usize>` from `src/c.rs` (mantissa `val : BigUint`
  becomes `Nat`; the const parameter `D` becomes an index of the Lean structure);
* `EDs` models `EDs` from `src/d.rs` (`val : BigUint`, `decimals : u8` become `Nat`).

Rust panics (`unreachable!` on unsupported precision or mismatched decimals, `BigUint`
subtraction underflow, `BigUint` division by zero) are modelled by `Option`: `none` is
a fatal failure, `some v` a normal result.  `usize as u8` / `usize as u32` casts are
modelled by `% 256` / `% 2 ^ 32`.
-/

/-- The `ES_BASES` table of `src/lib.rs` holds `10 ^ i` at index `i` for `i = 0..=31`;
`base` accessors first check `> 31` and panic (`none`) otherwise. -/
def ES_BASES (i : Nat) : Option Nat :=
  if i > 31 then none else some (10 ^ i)

/-- `ECs<DECIMALS>` from `src/c.rs`: a single `BigUint` mantissa. -/
structure ECs (D : Nat) where
  val : Nat
deriving DecidableEq

/-- `ECs::<D>::base()`: panics when `D > 31`, else `10 ^ D`. -/
def ECs.base (D : Nat) : Option Nat :=
  ES_BASES D

/-- `ECs::<D>::base_d(decimals)`: panics when `decimals > 31`, else `10 ^ decimals`. -/
def ECs.base_d (decimals : Nat) : Option Nat :=
  ES_BASES decimals

/-- `impl Sub for &ECs<D>`: `BigUint` subtraction panics on underflow. -/
def ECs.sub {D : Nat} (a rhs : ECs D) : Option (ECs D) :=
  if a.val < rhs.val then none else some ⟨a.val - rhs.val⟩

/-- `impl Mul for &ECs<D>`: `&self.val * &rhs.val / ECs::<D>::base()` (floor division). -/
def ECs.mul {D : Nat} (a rhs : ECs D) : Option (ECs D) :=
  (ECs.base D).map fun b => ⟨a.val * rhs.val / b⟩

/-- `impl Div for &ECs<D>`: `&self.val * base / &rhs.val`; `BigUint` division panics
on a zero divisor. -/
def ECs.div {D : Nat} (a rhs : ECs D) : Option (ECs D) :=
  (ECs.base D).bind fun b =>
    if rhs.val = 0 then none else some ⟨a.val * b / rhs.val⟩

/-- `ECs::sqrt`: `whole = val / base`, `sqrt_whole = whole.sqrt()`, result
`sqrt_whole * base`.  `BigUint::sqrt` is the floor integer square root, i.e. `Nat.sqrt`. -/
def ECs.sqrt {D : Nat} (a : ECs D) : Option (ECs D) :=
  (ECs.base D).map fun b => ⟨Nat.sqrt (a.val / b) * b⟩

/-- `ECs::to_decimals::<D1>`: identity when `D1 == D`, otherwise scale by
`base_d(dif as u8)` where `dif = |D - D1|` (the `usize as u8` cast is `% 256`),
multiplying when precision increases and floor-dividing when it decreases. -/
def ECs.to_decimals {D : Nat} (D1 : Nat) (a : ECs D) : Option (ECs D1) :=
  if D1 = D then some ⟨a.val⟩
  else
    (ECs.base_d ((if D > D1 then D - D1 else D1 - D) % 256)).map fun b =>
      if D > D1 then ⟨a.val / b⟩ else ⟨a.val * b⟩

/-- `EDs` from `src/d.rs`: mantissa plus run-time decimal count. -/
structure EDs where
  val : Nat
  decimals : Nat
deriving DecidableEq

/-- `EDs::new`: panics (`unreachable!`) when `decimals > 31`. -/
def EDs.new (val decimals : Nat) : Option EDs :=
  if decimals > 31 then none else some ⟨val, decimals⟩

/-- `EDs::base(decimals)`: panics when `decimals > 31`, else `10 ^ decimals`. -/
def EDs.base (decimals : Nat) : Option Nat :=
  ES_BASES decimals

/-- `EDs::sqrt`: same rule as `ECs::sqrt`, using the run-time `decimals`. -/
def EDs.sqrt (s : EDs) : Option EDs :=
  (EDs.base s.decimals).bind fun b =>
    EDs.new (Nat.sqrt (s.val / b) * b) s.decimals

/-- `EDs::to_const::<D>`: panics unless `self.decimals == D as u8`
(the `usize as u8` cast is `% 256`); otherwise carries the mantissa over. -/
def EDs.to_const (D : Nat) (s : EDs) : Option (ECs D) :=
  if s.decimals ≠ D % 256 then none else some ⟨s.val⟩

/-- `ECs::to_dynamic`: `EDs::new(self.val, D as u8)`. -/
def ECs.to_dynamic {D : Nat} (a : ECs D) : Option EDs :=
  EDs.new a.val (D % 256)

/-- `EDs::to_decimals(new_decimals)`: no-op when equal; otherwise scales by
`base(dif)` and overwrites the `decimals` field directly (note: no `≤ 31` check on
`new_decimals` itself, only `base(dif)` can fail). -/
def EDs.to_decimals (s : EDs) (new_decimals : Nat) : Option EDs :=
  if new_decimals = s.decimals then some s
  else
    (EDs.base (if s.decimals > new_decimals then s.decimals - new_decimals
               else new_decimals - s.decimals)).map fun b =>
      if s.decimals > new_decimals then ⟨s.val / b, new_decimals⟩
      else ⟨s.val * b, new_decimals⟩

/-- `impl Add for &EDs`: panics on mismatched decimals, then `EDs::new(sum, decimals)`. -/
def EDs.add (a rhs : EDs) : Option EDs :=
  if a.decimals ≠ rhs.decimals then none
  else EDs.new (a.val + rhs.val) a.decimals

/-- `impl Sub for &EDs`: panics on mismatched decimals, then on `BigUint` underflow. -/
def EDs.sub (a rhs : EDs) : Option EDs :=
  if a.decimals ≠ rhs.decimals then none
  else if a.val < rhs.val then none
  else EDs.new (a.val - rhs.val) a.decimals

/-- `impl Mul for &EDs`: panics on mismatched decimals, then
`&self.val * &rhs.val / EDs::base(self.decimals)`. -/
def EDs.mul (a rhs : EDs) : Option EDs :=
  if a.decimals ≠ rhs.decimals then none
  else (EDs.base a.decimals).bind fun b =>
    EDs.new (a.val * rhs.val / b) a.decimals

/-- `impl Div for &EDs`: panics on mismatched decimals, then
`&self.val * EDs::base(self.decimals) / &rhs.val` with a zero-divisor panic. -/
def EDs.div (a rhs : EDs) : Option EDs :=
  if a.decimals ≠ rhs.decimals then none
  else (EDs.base a.decimals).bind fun b =>
    if rhs.val = 0 then none else EDs.new (a.val * b / rhs.val) a.decimals

/-- `impl AddAssign<&EDs> for EDs`: same mismatch check, mutates `val` in place. -/
def EDs.add_assign (a rhs : EDs) : Option EDs :=
  if a.decimals ≠ rhs.decimals then none
  else some { a with val := a.val + rhs.val }

/-- `impl SubAssign<&EDs> for EDs`: mismatch check, then `BigUint` underflow panic. -/
def EDs.sub_assign (a rhs : EDs) : Option EDs :=
  if a.decimals ≠ rhs.decimals then none
  else if a.val < rhs.val then none
  else some { a with val := a.val - rhs.val }

/-- `impl MulAssign<&EDs> for EDs`: mismatch check, then rescaled product in place. -/
def EDs.mul_assign (a rhs : EDs) : Option EDs :=
  if a.decimals ≠ rhs.decimals then none
  else (EDs.base a.decimals).map fun b => { a with val := a.val * rhs.val / b }

/-- `impl DivAssign<&EDs> for EDs`: mismatch check, then rescaled quotient in place
with a zero-divisor panic. -/
def EDs.div_assign (a rhs : EDs) : Option EDs :=
  if a.decimals ≠ rhs.decimals then none
  else (EDs.base a.decimals).bind fun b =>
    if rhs.val = 0 then none else some { a with val := a.val * b / rhs.val }

/-- `BigUint::to_bytes_le`: little-endian base-256 digits; the zero value encodes
as the single byte `0`. -/
def natToBytesLE (n : Nat) : List Nat :=
  if n = 0 then [0] else Nat.digits 256 n

/-- `BigUint::from_bytes_le`: reassembles `Σ bytes[i] * 256 ^ i`. -/
def natFromBytesLE (bytes : List Nat) : Nat :=
  Nat.ofDigits 256 bytes

/-- `impl Storable for ECs<D>`, `to_bytes`: `self.val.to_bytes_le()`. -/
def ECs.to_bytes {D : Nat} (a : ECs D) : List Nat :=
  natToBytesLE a.val

/-- `impl Storable for ECs<D>`, `from_bytes`: `BigUint::from_bytes_le(&bytes)`. -/
def ECs.from_bytes (D : Nat) (bytes : List Nat) : ECs D :=
  ⟨natFromBytesLE bytes⟩

/-- `impl Storable for ECs<D>`, `BOUND`: `max_size: D as u32` (the cast is `% 2 ^ 32`). -/
def ECs.bound_max_size (D : Nat) : Nat :=
  D % 2 ^ 32

/-- The `EDsCandid` record of `src/d.rs`: the interchange wire shape of `EDs`,
`{ val : Nat, decimals : u8 }`. -/
structure EDsCandid where
  val : Nat
  decimals : Nat
deriving DecidableEq

/-- `impl CandidType for EDs`, `idl_serialize`: builds the `EDsCandid` record from the
value.  Modelled from the spec: the external interchange encoder (the candid framework,
an out-of-scope collaborator per the spec) transports the record faithfully, so encoding
is modelled as producing the record itself. -/
def EDs.idl_serialize (s : EDs) : EDsCandid :=
  ⟨s.val, s.decimals⟩

/-- `impl Deserialize for EDs`: reads an `EDsCandid` record and rebuilds the value via
`EDs::new(a.val.0, a.decimals)` (which panics when `decimals > 31`). -/
def EDs.deserialize (a : EDsCandid) : Option EDs :=
  EDs.new a.val a.decimals

/-! ## Helper lemmas -/

theorem ES_BASES_eq {i : Nat} (h : i ≤ 31) : ES_BASES i = some (10 ^ i) := by
  unfold ES_BASES
  rw [if_neg (by omega)]

theorem EDs.new_eq {v d : Nat} (hd : d ≤ 31) : EDs.new v d = some ⟨v, d⟩ := by
  unfold EDs.new
  rw [if_neg (by omega)]

theorem lt_div_succ_mul (n b : Nat) (hb : 0 < b) : n < (n / b + 1) * b := by
  have h2 : n % b < b := Nat.mod_lt n hb
  calc n = b * (n / b) + n % b := (Nat.div_add_mod n b).symm
    _ < b * (n / b) + b := Nat.add_lt_add_left h2 _
    _ = (n / b + 1) * b := by ring

theorem pow10_pos (D : Nat) : 0 < 10 ^ D :=
  Nat.pos_pow_of_pos D (by omega)

/-! ## Claims -/

/-- C1: for same-precision operands (both `ECs D`, or both `EDs` with equal decimals
`D ≤ 31`), multiplication succeeds and returns the value whose mantissa is
`⌊mantissa_a * mantissa_b / 10 ^ D⌋`: the result `c` satisfies
`c.val * 10 ^ D ≤ a.val * b.val < (c.val + 1) * 10 ^ D`. -/
theorem C1_multiply_floor {D : Nat} (hD : D ≤ 31) (a b : ECs D) (x y : EDs)
    (hx : x.decimals = D) (hy : y.decimals = D) :
    (∃ c : ECs D, ECs.mul a b = some c ∧
        c.val * 10 ^ D ≤ a.val * b.val ∧ a.val * b.val < (c.val + 1) * 10 ^ D) ∧
    (∃ z : EDs, EDs.mul x y = some z ∧ z.decimals = D ∧
        z.val * 10 ^ D ≤ x.val * y.val ∧ x.val * y.val < (z.val + 1) * 10 ^ D) := by
  constructor
  · refine ⟨⟨a.val * b.val / 10 ^ D⟩, ?_, Nat.div_mul_le_self _ _,
      lt_div_succ_mul _ _ (pow10_pos D)⟩
    unfold ECs.mul ECs.base
    rw [ES_BASES_eq hD]
    rfl
  · refine ⟨⟨x.val * y.val / 10 ^ D, D⟩, ?_, rfl, Nat.div_mul_le_self _ _,
      lt_div_succ_mul _ _ (pow10_pos D)⟩
    unfold EDs.mul EDs.base
    rw [hx, hy, if_neg (by simp), ES_BASES_eq hD, Option.some_bind, EDs.new_eq hD]

/-- C1 witness: `1.50 * 2.00 = 3.00` at two decimals, in both representations. -/
theorem C1_multiply_floor_witness :
    (∃ c : ECs 2, ECs.mul (⟨150⟩ : ECs 2) ⟨200⟩ = some c ∧
        c.val * 10 ^ 2 ≤ 150 * 200 ∧ 150 * 200 < (c.val + 1) * 10 ^ 2) ∧
    (∃ z : EDs, EDs.mul ⟨150, 2⟩ ⟨200, 2⟩ = some z ∧ z.decimals = 2 ∧
        z.val * 10 ^ 2 ≤ 150 * 200 ∧ 150 * 200 < (z.val + 1) * 10 ^ 2) :=
  C1_multiply_floor (by decide) ⟨150⟩ ⟨200⟩ ⟨150, 2⟩ ⟨200, 2⟩ rfl rfl

/-- C2: for same-precision operands with precision `D ≤ 31`, division fails if and
only if the divisor mantissa is zero, and otherwise returns the value whose mantissa
is `⌊mantissa_a * 10 ^ D / mantissa_b⌋` (scale up first, then divide). -/
theorem C2_divide {D : Nat} (hD : D ≤ 31) (a b : ECs D) (x y : EDs)
    (hx : x.decimals = D) (hy : y.decimals = D) :
    (ECs.div a b = none ↔ b.val = 0) ∧
    (b.val ≠ 0 → ECs.div a b = some ⟨a.val * 10 ^ D / b.val⟩) ∧
    (EDs.div x y = none ↔ y.val = 0) ∧
    (y.val ≠ 0 → EDs.div x y = some ⟨x.val * 10 ^ D / y.val, D⟩) := by
  have hc : ECs.div a b =
      (if b.val = 0 then none else some ⟨a.val * 10 ^ D / b.val⟩) := by
    unfold ECs.div ECs.base
    rw [ES_BASES_eq hD, Option.some_bind]
  have hd : EDs.div x y =
      (if y.val = 0 then none else some ⟨x.val * 10 ^ D / y.val, D⟩) := by
    unfold EDs.div EDs.base
    rw [hx, hy, if_neg (by simp), ES_BASES_eq hD, Option.some_bind]
    by_cases h0 : y.val = 0
    · rw [if_pos h0, if_pos h0]
    · rw [if_neg h0, if_neg h0, EDs.new_eq hD]
  refine ⟨?_, ?_, ?_, ?_⟩
  · rw [hc]
    by_cases h0 : b.val = 0 <;> simp [h0]
  · intro h0
    rw [hc, if_neg h0]
  · rw [hd]
    by_cases h0 : y.val = 0 <;> simp [h0]
  · intro h0
    rw [hd, if_neg h0]

/-- C2 witness: at `D = 2`, `3.00 / 2.00 = 1.50` and division by a zero mantissa
fails, in both representations. -/
theorem C2_divide_witness :
    (ECs.div (⟨300⟩ : ECs 2) ⟨0⟩ = none ↔ (0 : Nat) = 0) ∧
    ((200 : Nat) ≠ 0 → ECs.div (⟨300⟩ : ECs 2) ⟨200⟩ = some ⟨300 * 10 ^ 2 / 200⟩) ∧
    (EDs.div ⟨300, 2⟩ ⟨0, 2⟩ = none ↔ (0 : Nat) = 0) ∧
    ((200 : Nat) ≠ 0 → EDs.div ⟨300, 2⟩ ⟨200, 2⟩ = some ⟨300 * 10 ^ 2 / 200, 2⟩) :=
  ⟨(C2_divide (by decide) ⟨300⟩ (⟨0⟩ : ECs 2) ⟨300, 2⟩ ⟨0, 2⟩ rfl rfl).1,
   (C2_divide (by decide) ⟨300⟩ (⟨200⟩ : ECs 2) ⟨300, 2⟩ ⟨200, 2⟩ rfl rfl).2.1,
   (C2_divide (by decide) ⟨300⟩ (⟨0⟩ : ECs 2) ⟨300, 2⟩ ⟨0, 2⟩ rfl rfl).2.2.1,
   (C2_divide (by decide) ⟨300⟩ (⟨200⟩ : ECs 2) ⟨300, 2⟩ ⟨200, 2⟩ rfl rfl).2.2.2⟩

/-- C3: for same-precision operands (decimals `D ≤ 31` in the dynamic case),
subtraction fails exactly when the subtrahend mantissa exceeds the minuend mantissa,
and otherwise returns the true difference (`c.val + b.val = a.val`); in particular
`10.00 - 3.25 = 6.75` at two decimals. -/
theorem C3_subtract {D : Nat} (hD : D ≤ 31) (a b : ECs D) (x y : EDs)
    (hx : x.decimals = D) (hy : y.decimals = D) :
    (ECs.sub a b = none ↔ a.val < b.val) ∧
    (b.val ≤ a.val → ∃ c : ECs D, ECs.sub a b = some c ∧ c.val + b.val = a.val) ∧
    (EDs.sub x y = none ↔ x.val < y.val) ∧
    (y.val ≤ x.val → ∃ z : EDs, EDs.sub x y = some z ∧ z.decimals = D ∧
        z.val + y.val = x.val) ∧
    ECs.sub (⟨1000⟩ : ECs 2) ⟨325⟩ = some ⟨675⟩ := by
  have hs : EDs.sub x y =
      (if x.val < y.val then none else some ⟨x.val - y.val, D⟩) := by
    unfold EDs.sub
    rw [hx, hy, if_neg (by simp)]
    by_cases h0 : x.val < y.val
    · rw [if_pos h0, if_pos h0]
    · rw [if_neg h0, if_neg h0, EDs.new_eq hD]
  refine ⟨?_, ?_, ?_, ?_, by decide⟩
  · unfold ECs.sub
    by_cases h0 : a.val < b.val <;> simp [h0]
  · intro hba
    exact ⟨⟨a.val - b.val⟩, by unfold ECs.sub; rw [if_neg (by omega)],
      show a.val - b.val + b.val = a.val by omega⟩
  · rw [hs]
    by_cases h0 : x.val < y.val <;> simp [h0]
  · intro hba
    exact ⟨⟨x.val - y.val, D⟩, by rw [hs, if_neg (by omega)], rfl,
      show x.val - y.val + y.val = x.val by omega⟩

/-- C3 witness: at `D = 2`, `10.00 - 3.25` succeeds with mantissa `675` and
`3.25 - 10.00` fails. -/
theorem C3_subtract_witness :
    (ECs.sub (⟨325⟩ : ECs 2) ⟨1000⟩ = none ↔ (325 : Nat) < 1000) ∧
    ((1000 : Nat) ≤ 325 → ∃ c : ECs 2, ECs.sub (⟨325⟩ : ECs 2) ⟨1000⟩ = some c ∧
        c.val + 1000 = 325) ∧
    (EDs.sub ⟨325, 2⟩ ⟨1000, 2⟩ = none ↔ (325 : Nat) < 1000) ∧
    ((1000 : Nat) ≤ 325 → ∃ z : EDs, EDs.sub ⟨325, 2⟩ ⟨1000, 2⟩ = some z ∧
        z.decimals = 2 ∧ z.val + 1000 = 325) ∧
    ECs.sub (⟨1000⟩ : ECs 2) ⟨325⟩ = some ⟨675⟩ :=
  C3_subtract (by decide) ⟨325⟩ ⟨1000⟩ ⟨325, 2⟩ ⟨1000, 2⟩ rfl rfl

/-- C4: precision conversion, for precisions in `0..=31`: converting to the same
precision is the identity, converting up multiplies the mantissa by `10 ^ dif`, and
converting down floor-divides it by `10 ^ dif`, for both `ECs.to_decimals` and
`EDs.to_decimals`. -/
theorem C4_to_decimals {D D1 : Nat} (hD : D ≤ 31) (hD1 : D1 ≤ 31) (a : ECs D)
    (s : EDs) (hs : s.decimals ≤ 31) (nd : Nat) (hnd : nd ≤ 31) :
    (D1 = D → ECs.to_decimals D1 a = some ⟨a.val⟩) ∧
    (D < D1 → ECs.to_decimals D1 a = some ⟨a.val * 10 ^ (D1 - D)⟩) ∧
    (D1 < D → ECs.to_decimals D1 a = some ⟨a.val / 10 ^ (D - D1)⟩) ∧
    (nd = s.decimals → EDs.to_decimals s nd = some s) ∧
    (s.decimals < nd →
      EDs.to_decimals s nd = some ⟨s.val * 10 ^ (nd - s.decimals), nd⟩) ∧
    (nd < s.decimals →
      EDs.to_decimals s nd = some ⟨s.val / 10 ^ (s.decimals - nd), nd⟩) := by
  refine ⟨?_, ?_, ?_, ?_, ?_, ?_⟩
  · intro h
    unfold ECs.to_decimals
    rw [if_pos h]
  · intro h
    unfold ECs.to_decimals ECs.base_d
    simp only [if_neg (show ¬ D1 = D by omega), if_neg (show ¬ D > D1 by omega),
      Nat.mod_eq_of_lt (show D1 - D < 256 by omega),
      ES_BASES_eq (show D1 - D ≤ 31 by omega), Option.map_some']
  · intro h
    unfold ECs.to_decimals ECs.base_d
    simp only [if_neg (show ¬ D1 = D by omega), if_pos (show D > D1 by omega),
      Nat.mod_eq_of_lt (show D - D1 < 256 by omega),
      ES_BASES_eq (show D - D1 ≤ 31 by omega), Option.map_some']
  · intro h
    unfold EDs.to_decimals
    rw [if_pos h]
  · intro h
    unfold EDs.to_decimals EDs.base
    simp only [if_neg (show ¬ nd = s.decimals by omega),
      if_neg (show ¬ s.decimals > nd by omega),
      ES_BASES_eq (show nd - s.decimals ≤ 31 by omega), Option.map_some']
  · intro h
    unfold EDs.to_decimals EDs.base
    simp only [if_neg (show ¬ nd = s.decimals by omega),
      if_pos (show s.decimals > nd by omega),
      ES_BASES_eq (show s.decimals - nd ≤ 31 by omega), Option.map_some']

/-- C4 witness: converting `ECs 8` down to 2 decimals floor-divides by `10 ^ 6`, and
converting a 2-decimal `EDs` up to 4 decimals multiplies by `10 ^ 2`. -/
theorem C4_to_decimals_witness :
    ((2 : Nat) = 8 → ECs.to_decimals 2 (⟨12345678⟩ : ECs 8) = some ⟨12345678⟩) ∧
    ((8 : Nat) < 2 →
      ECs.to_decimals 2 (⟨12345678⟩ : ECs 8) = some ⟨12345678 * 10 ^ (2 - 8)⟩) ∧
    ((2 : Nat) < 8 →
      ECs.to_decimals 2 (⟨12345678⟩ : ECs 8) = some ⟨12345678 / 10 ^ (8 - 2)⟩) ∧
    ((4 : Nat) = 2 → EDs.to_decimals ⟨500, 2⟩ 4 = some ⟨500, 2⟩) ∧
    ((2 : Nat) < 4 → EDs.to_decimals ⟨500, 2⟩ 4 = some ⟨500 * 10 ^ (4 - 2), 4⟩) ∧
    ((4 : Nat) < 2 → EDs.to_decimals ⟨500, 2⟩ 4 = some ⟨500 / 10 ^ (2 - 4), 4⟩) :=
  C4_to_decimals (by decide) (by decide) ⟨12345678⟩ ⟨500, 2⟩ (by decide) 4 (by decide)

/-- C5: contrary to the claim, `EDs.to_decimals` does NOT fail for every requested
decimal count above 31: starting from 5 decimals, requesting 32 decimals succeeds
(the scale difference 27 is within the table) and produces a value whose `decimals`
field is 32, violating the `≤ 31` invariant that `EDs.new` itself enforces. -/
theorem C5_to_decimals_overflow_bug :
    EDs.to_decimals ⟨1, 5⟩ 32 = some ⟨10 ^ 27, 32⟩ ∧ ¬ (32 : Nat) ≤ 31 := by
  constructor
  · unfold EDs.to_decimals EDs.base ES_BASES
    norm_num
  · decide

/-- C6: every binary arithmetic operation on `EDs` (plain and assignment forms)
returns a hard failure when the two operands carry different `decimals`. -/
theorem C6_precision_mismatch (a b : EDs) (h : a.decimals ≠ b.decimals) :
    EDs.add a b = none ∧ EDs.sub a b = none ∧ EDs.mul a b = none ∧
    EDs.div a b = none ∧ EDs.add_assign a b = none ∧ EDs.sub_assign a b = none ∧
    EDs.mul_assign a b = none ∧ EDs.div_assign a b = none := by
  unfold EDs.add EDs.sub EDs.mul EDs.div
    EDs.add_assign EDs.sub_assign EDs.mul_assign EDs.div_assign
  simp [h]

/-- C6 witness: a 2-decimal and a 3-decimal value fail in all eight operations. -/
theorem C6_precision_mismatch_witness :
    EDs.add ⟨1, 2⟩ ⟨1, 3⟩ = none ∧ EDs.sub ⟨1, 2⟩ ⟨1, 3⟩ = none ∧
    EDs.mul ⟨1, 2⟩ ⟨1, 3⟩ = none ∧ EDs.div ⟨1, 2⟩ ⟨1, 3⟩ = none ∧
    EDs.add_assign ⟨1, 2⟩ ⟨1, 3⟩ = none ∧ EDs.sub_assign ⟨1, 2⟩ ⟨1, 3⟩ = none ∧
    EDs.mul_assign ⟨1, 2⟩ ⟨1, 3⟩ = none ∧ EDs.div_assign ⟨1, 2⟩ ⟨1, 3⟩ = none :=
  C6_precision_mismatch ⟨1, 2⟩ ⟨1, 3⟩ (by decide)

/-- C7: for `D ≤ 31`, `EDs.to_const D` succeeds exactly when the run-time `decimals`
equals `D`, carrying the mantissa unchanged, and fails otherwise; `ECs.to_dynamic`
yields the `EDs` with the same mantissa and `decimals = D`; composing the two is the
identity on `ECs D`. -/
theorem C7_to_fixed_to_dynamic {D : Nat} (hD : D ≤ 31) (s : EDs) (a : ECs D) :
    ((EDs.to_const D s).isSome ↔ s.decimals = D) ∧
    (s.decimals = D → EDs.to_const D s = some ⟨s.val⟩) ∧
    (s.decimals ≠ D → EDs.to_const D s = none) ∧
    ECs.to_dynamic a = some ⟨a.val, D⟩ ∧
    (ECs.to_dynamic a).bind (EDs.to_const D) = some a := by
  have hmod : D % 256 = D := Nat.mod_eq_of_lt (by omega)
  have htd : ECs.to_dynamic a = some ⟨a.val, D⟩ := by
    unfold ECs.to_dynamic
    rw [hmod, EDs.new_eq hD]
  refine ⟨?_, ?_, ?_, htd, ?_⟩
  · unfold EDs.to_const
    rw [hmod]
    by_cases h : s.decimals = D
    · simp [h]
    · simp [h]
  · intro h
    unfold EDs.to_const
    rw [hmod, if_neg (by simp [h])]
  · intro h
    unfold EDs.to_const
    rw [hmod, if_pos h]
  · rw [htd, Option.some_bind]
    unfold EDs.to_const
    rw [hmod, if_neg (by simp)]

/-- C7 witness: at `D = 8`, `to_const` succeeds on a matching 8-decimal value and
`to_dynamic` then `to_const` round-trips a concrete `ECs 8`. -/
theorem C7_to_fixed_to_dynamic_witness :
    ((EDs.to_const 8 ⟨100, 8⟩).isSome ↔ (8 : Nat) = 8) ∧
    ((8 : Nat) = 8 → EDs.to_const 8 ⟨100, 8⟩ = some ⟨100⟩) ∧
    ((8 : Nat) ≠ 8 → EDs.to_const 8 ⟨100, 8⟩ = none) ∧
    ECs.to_dynamic (⟨77⟩ : ECs 8) = some ⟨77, 8⟩ ∧
    (ECs.to_dynamic (⟨77⟩ : ECs 8)).bind (EDs.to_const 8) = some ⟨77⟩ :=
  C7_to_fixed_to_dynamic (by decide) ⟨100, 8⟩ ⟨77⟩

/-- C8: square root first discards the fractional part (`whole = ⌊val / 10 ^ D⌋`),
takes the integer square root of the whole part, and rescales by `10 ^ D`; the
unscaled result `w = r.val / 10 ^ D` is the floor square root of the whole part:
`w * w ≤ whole < (w + 1) * (w + 1)`. -/
theorem C8_sqrt {D : Nat} (hD : D ≤ 31) (a : ECs D) (s : EDs) (hs : s.decimals ≤ 31) :
    (∃ r : ECs D, ECs.sqrt a = some r ∧
        r.val = Nat.sqrt (a.val / 10 ^ D) * 10 ^ D ∧
        (r.val / 10 ^ D) * (r.val / 10 ^ D) ≤ a.val / 10 ^ D ∧
        a.val / 10 ^ D < (r.val / 10 ^ D + 1) * (r.val / 10 ^ D + 1)) ∧
    (∃ t : EDs, EDs.sqrt s = some t ∧ t.decimals = s.decimals ∧
        t.val = Nat.sqrt (s.val / 10 ^ s.decimals) * 10 ^ s.decimals) := by
  have hcancel : Nat.sqrt (a.val / 10 ^ D) * 10 ^ D / 10 ^ D =
      Nat.sqrt (a.val / 10 ^ D) :=
    Nat.mul_div_cancel _ (pow10_pos D)
  constructor
  · refine ⟨⟨Nat.sqrt (a.val / 10 ^ D) * 10 ^ D⟩, ?_, rfl, ?_, ?_⟩
    · unfold ECs.sqrt ECs.base
      rw [ES_BASES_eq hD]
      rfl
    · show (Nat.sqrt (a.val / 10 ^ D) * 10 ^ D / 10 ^ D) *
          (Nat.sqrt (a.val / 10 ^ D) * 10 ^ D / 10 ^ D) ≤ a.val / 10 ^ D
      rw [hcancel]
      exact Nat.sqrt_le _
    · show a.val / 10 ^ D < (Nat.sqrt (a.val / 10 ^ D) * 10 ^ D / 10 ^ D + 1) *
          (Nat.sqrt (a.val / 10 ^ D) * 10 ^ D / 10 ^ D + 1)
      rw [hcancel]
      exact Nat.lt_succ_sqrt _
  · refine ⟨⟨Nat.sqrt (s.val / 10 ^ s.decimals) * 10 ^ s.decimals, s.decimals⟩,
      ?_, rfl, rfl⟩
    unfold EDs.sqrt EDs.base
    rw [ES_BASES_eq hs, Option.some_bind, EDs.new_eq hs]

/-- C8 witness: `sqrt(12.34)` at two decimals is `3.00` (mantissa `300`), since the
fractional part is discarded before rooting. -/
theorem C8_sqrt_witness :
    (∃ r : ECs 2, ECs.sqrt (⟨1234⟩ : ECs 2) = some r ∧
        r.val = Nat.sqrt (1234 / 10 ^ 2) * 10 ^ 2 ∧
        (r.val / 10 ^ 2) * (r.val / 10 ^ 2) ≤ 1234 / 10 ^ 2 ∧
        1234 / 10 ^ 2 < (r.val / 10 ^ 2 + 1) * (r.val / 10 ^ 2 + 1)) ∧
    (∃ t : EDs, EDs.sqrt ⟨1234, 2⟩ = some t ∧ t.decimals = 2 ∧
        t.val = Nat.sqrt (1234 / 10 ^ 2) * 10 ^ 2) :=
  C8_sqrt (by decide) ⟨1234⟩ ⟨1234, 2⟩ (by decide)

/-- C9: the persistence encoding of `ECs D` is the little-endian byte string of the
mantissa — decoding it reproduces the value exactly — and the declared maximum
encoded size equals `D` (for every representable `D ≤ 31`). -/
theorem C9_storable_roundtrip {D : Nat} (hD : D ≤ 31) (a : ECs D) :
    ECs.from_bytes D (ECs.to_bytes a) = a ∧ ECs.bound_max_size D = D := by
  constructor
  · have hround : natFromBytesLE (natToBytesLE a.val) = a.val := by
      unfold natToBytesLE natFromBytesLE
      by_cases h : a.val = 0
      · rw [if_pos h]
        simp [Nat.ofDigits, h]
      · rw [if_neg h, Nat.ofDigits_digits]
    unfold ECs.from_bytes ECs.to_bytes
    rw [hround]
  · exact Nat.mod_eq_of_lt (lt_of_le_of_lt hD (by norm_num))

/-- C9 witness: a concrete `ECs 8` mantissa survives the byte round-trip and the
declared bound at `D = 8` is `8`. -/
theorem C9_storable_roundtrip_witness :
    ECs.from_bytes 8 (ECs.to_bytes (⟨123456789⟩ : ECs 8)) = ⟨123456789⟩ ∧
    ECs.bound_max_size 8 = 8 :=
  C9_storable_roundtrip (by decide) ⟨123456789⟩

/-- C10: serializing an `EDs` to its interchange record `{ val, decimals }` and
deserializing it back reproduces the identical value, for every value satisfying the
`decimals ≤ 31` data-model invariant. -/
theorem C10_interchange_roundtrip (s : EDs) (hs : s.decimals ≤ 31) :
    EDs.deserialize (EDs.idl_serialize s) = some s := by
  show EDs.new s.val s.decimals = some s
  rw [EDs.new_eq hs]

/-- C10 witness: the 8-decimal value with mantissa 42 round-trips through the
interchange record. -/
theorem C10_interchange_roundtrip_witness :
    EDs.deserialize (EDs.idl_serialize ⟨42, 8⟩) = some ⟨42, 8⟩ :=
  C10_interchange_roundtrip ⟨42, 8⟩ (by decide)
